import Mathlib

set_option maxRecDepth 100000

/-!
Shallow embedding of the `justascraper` repository (scraper.py, config.py,
utils/notifier.py) and proofs about its announced properties.

Python strings are modelled as Lean `String`; byte strings as `List Nat`
(each entry < 256); JSON records as Lean structures.  Machine words in the
MD5 computation are `Nat` reduced modulo `2 ^ 32` wherever Python's
`hashlib` would overflow a 32-bit word.
-/

namespace Scraper

/-- An announcement record as built by `QingdaoHRSScraper.parse_announcements`
(scraper.py lines 93-99): a dict with keys id, title, url, scraped_at, is_new. -/
structure Announcement where
  id : String
  title : String
  url : String
  scraped_at : String
  is_new : Bool
deriving DecidableEq, Repr

/-- The persisted store shape used by `load_existing_data` / `save_data` /
`run_once` (scraper.py lines 145-149 and 233-237). -/
structure StoreState where
  announcements : List Announcement
  last_check : String
  total_count : Nat
deriving DecidableEq, Repr

/-! ### UTF-8 encoding (Python `str.encode('utf-8')`) -/

/-- UTF-8 encoding of a single code point, as a list of bytes. -/
def utf8Char (c : Char) : List Nat :=
  let n := c.toNat
  if n < 0x80 then [n]
  else if n < 0x800 then [0xc0 + n / 64, 0x80 + n % 64]
  else if n < 0x10000 then [0xe0 + n / 4096, 0x80 + n / 64 % 64, 0x80 + n % 64]
  else [0xf0 + n / 262144, 0x80 + n / 4096 % 64, 0x80 + n / 64 % 64, 0x80 + n % 64]

/-- UTF-8 encoding of a string (Python `s.encode('utf-8')`). -/
def strBytes (s : String) : List Nat :=
  s.data.foldr (fun c acc => utf8Char c ++ acc) []

/-! ### MD5 (RFC 1321), as computed by Python's `hashlib.md5` -/

/-- Left-rotation of a 32-bit word (valid for `x < 2 ^ 32`, `n ≤ 32`). -/
def rotl32 (x n : Nat) : Nat :=
  (x % 2 ^ (32 - n)) * 2 ^ n + x / 2 ^ (32 - n)

/-- The 64 MD5 round constants `floor(abs(sin(i+1)) * 2^32)`. -/
def md5K : List Nat :=
  [0xd76aa478, 0xe8c7b756, 0x242070db, 0xc1bdceee,
   0xf57c0faf, 0x4787c62a, 0xa8304613, 0xfd469501,
   0x698098d8, 0x8b44f7af, 0xffff5bb1, 0x895cd7be,
   0x6b901122, 0xfd987193, 0xa679438e, 0x49b40821,
   0xf61e2562, 0xc040b340, 0x265e5a51, 0xe9b6c7aa,
   0xd62f105d, 0x02441453, 0xd8a1e681, 0xe7d3fbc8,
   0x21e1cde6, 0xc33707d6, 0xf4d50d87, 0x455a14ed,
   0xa9e3e905, 0xfcefa3f8, 0x676f02d9, 0x8d2a4c8a,
   0xfffa3942, 0x8771f681, 0x6d9d6122, 0xfde5380c,
   0xa4beea44, 0x4bdecfa9, 0xf6bb4b60, 0xbebfbc70,
   0x289b7ec6, 0xeaa127fa, 0xd4ef3085, 0x04881d05,
   0xd9d4d039, 0xe6db99e5, 0x1fa27cf8, 0xc4ac5665,
   0xf4292244, 0x432aff97, 0xab9423a7, 0xfc93a039,
   0x655b59c3, 0x8f0ccc92, 0xffeff47d, 0x85845dd1,
   0x6fa87e4f, 0xfe2ce6e0, 0xa3014314, 0x4e0811a1,
   0xf7537e82, 0xbd3af235, 0x2ad7d2bb, 0xeb86d391]

/-- The MD5 per-round left-rotation amounts. -/
def md5S : List Nat :=
  [7, 12, 17, 22, 7, 12, 17, 22, 7, 12, 17, 22, 7, 12, 17, 22,
   5, 9, 14, 20, 5, 9, 14, 20, 5, 9, 14, 20, 5, 9, 14, 20,
   4, 11, 16, 23, 4, 11, 16, 23, 4, 11, 16, 23, 4, 11, 16, 23,
   6, 10, 15, 21, 6, 10, 15, 21, 6, 10, 15, 21, 6, 10, 15, 21]

/-- The MD5 nonlinear mixing function for round `i`. -/
def md5F (i b c d : Nat) : Nat :=
  if i < 16 then (b &&& c) ||| ((0xffffffff ^^^ b) &&& d)
  else if i < 32 then (d &&& b) ||| ((0xffffffff ^^^ d) &&& c)
  else if i < 48 then b ^^^ c ^^^ d
  else c ^^^ (b ||| (0xffffffff ^^^ d))

/-- The MD5 message-word index for round `i`. -/
def md5G (i : Nat) : Nat :=
  if i < 16 then i
  else if i < 32 then (5 * i + 1) % 16
  else if i < 48 then (3 * i + 5) % 16
  else (7 * i) % 16

/-- One MD5 round on the state `(a, b, c, d)`, where `M j` is the `j`-th
little-endian 32-bit word of the current 64-byte chunk. -/
def md5Round (M : Nat → Nat) (st : Nat × Nat × Nat × Nat) (i : Nat) :
    Nat × Nat × Nat × Nat :=
  let (a, b, c, d) := st
  let f := (md5F i b c d + a + md5K.getD i 0 + M (md5G i)) % 2 ^ 32
  (d, (b + rotl32 f (md5S.getD i 0)) % 2 ^ 32, b, c)

/-- The `j`-th little-endian 32-bit word of a byte chunk. -/
def chunkWord (chunk : List Nat) (j : Nat) : Nat :=
  chunk.getD (4 * j) 0 + 256 * chunk.getD (4 * j + 1) 0 +
    65536 * chunk.getD (4 * j + 2) 0 + 16777216 * chunk.getD (4 * j + 3) 0

/-- Process one 64-byte chunk: 64 rounds, then add into the running state. -/
def md5Chunk (st : Nat × Nat × Nat × Nat) (chunk : List Nat) :
    Nat × Nat × Nat × Nat :=
  let (a0, b0, c0, d0) := st
  let (a, b, c, d) := (List.range 64).foldl (md5Round (chunkWord chunk)) st
  ((a0 + a) % 2 ^ 32, (b0 + b) % 2 ^ 32, (c0 + c) % 2 ^ 32, (d0 + d) % 2 ^ 32)

/-- MD5 padding: append `0x80`, zero-fill to 56 mod 64, then the original
bit length as a little-endian 64-bit quantity. -/
def md5Pad (msg : List Nat) : List Nat :=
  let len := msg.length
  let zeros := (56 + 64 - (len + 1) % 64) % 64
  msg ++ [0x80] ++ List.replicate zeros 0 ++
    (List.range 8).map (fun j => 8 * len / 2 ^ (8 * j) % 256)

/-- Split a byte list into 64-byte chunks (`fuel` bounds the recursion). -/
def splitChunks : Nat → List Nat → List (List Nat)
  | 0, _ => []
  | _, [] => []
  | fuel + 1, l => l.take 64 :: splitChunks fuel (l.drop 64)

/-- Little-endian byte decomposition of a 32-bit word. -/
def wordBytes (x : Nat) : List Nat :=
  [x % 256, x / 256 % 256, x / 65536 % 256, x / 16777216 % 256]

/-- The 16-byte MD5 digest of a byte string. -/
def md5Bytes (msg : List Nat) : List Nat :=
  let padded := md5Pad msg
  let (a, b, c, d) := (splitChunks padded.length padded).foldl md5Chunk
    (0x67452301, 0xefcdab89, 0x98badcfe, 0x10325476)
  wordBytes a ++ wordBytes b ++ wordBytes c ++ wordBytes d

/-- A hex digit character (lowercase), as produced by `hexdigest()`. -/
def hexChar (n : Nat) : Char :=
  if n < 10 then Char.ofNat (48 + n) else Char.ofNat (87 + n)

/-- The lowercase hex digest string of MD5 (Python `md5(...).hexdigest()`). -/
def md5Hex (msg : List Nat) : String :=
  ⟨(md5Bytes msg).foldr (fun b acc => hexChar (b / 16) :: hexChar (b % 16) :: acc) []⟩

/-- `QingdaoHRSScraper.generate_id` (scraper.py lines 120-124):
first 16 hex characters of `md5((title + "_" + url).encode('utf-8'))`. -/
def generate_id (title url : String) : String :=
  (md5Hex (strBytes (title ++ "_" ++ url))).take 16

/-! ### Link classification and URL resolution -/

/-- An anchor element as enumerated by `soup.find_all('a', href=True)`
(scraper.py line 85): its `href` attribute and its stripped visible text. -/
structure Anchor where
  href : String
  text : String
deriving DecidableEq, Repr

/-- The fixed keyword list of `is_announcement_link` (scraper.py line 115). -/
def keywords : List String :=
  ["通知", "公告", "关于", "职称", "评审", "报送"]

/-- Python `str.startswith`: `p` is a prefix of `s` (character-wise). -/
def pyStartswith (p s : String) : Bool :=
  List.isPrefixOf p.data s.data

/-- Whether `p` occurs as a contiguous sublist of the second list. -/
def listIsInfixOf (p : List Char) : List Char → Bool
  | [] => p.isEmpty
  | c :: t => List.isPrefixOf p (c :: t) || listIsInfixOf p t

/-- Python's substring containment `k in text` for strings. -/
def pyContains (k text : String) : Bool :=
  listIsInfixOf k.data text.data

/-- `QingdaoHRSScraper.is_announcement_link` (scraper.py lines 109-118):
false when text or href is empty (Python falsiness of `''`), otherwise true
iff some keyword occurs in the text as a case-sensitive substring. -/
def is_announcement_link (text href : String) : Bool :=
  if text = "" || href = "" then false
  else keywords.any (fun k => pyContains k text)

/-- The site origin hard-coded in `get_full_url` (scraper.py line 131). -/
def site_origin : String := "https://hrss.qingdao.gov.cn"

/-- The listing page's own path hard-coded in `get_full_url` (line 133),
equal to `TARGET_URL` in config.py. -/
def listing_path : String := "https://hrss.qingdao.gov.cn/ztzl_47/zcpd_47/tzgg_47/"

/-- `QingdaoHRSScraper.get_full_url` (scraper.py lines 126-133). -/
def get_full_url (href : String) : String :=
  if pyStartswith "http" href then href
  else if pyStartswith "/" href then site_origin ++ href
  else listing_path ++ href

/-- The record built for one matching anchor (scraper.py lines 93-99).
Note the source passes the raw `href` to `generate_id` but the resolved
`get_full_url href` to the `url` field. -/
def mkAnnouncement (now : String) (a : Anchor) : Announcement :=
  { id := generate_id a.text a.href
    title := a.text
    url := get_full_url a.href
    scraped_at := now
    is_new := true }

/-- `QingdaoHRSScraper.parse_announcements` (scraper.py lines 73-107), after
the anchor enumeration step: the loop over anchors appending a record for
each one that `is_announcement_link` accepts.  `now` is the formatted
`datetime.now()` timestamp.  The HTML-extraction step and the surrounding
`try/except` (which degrade to `[]`) are abstracted by taking the anchor
list as input; the function is total by construction. -/
def parse_announcements (now : String) (anchors : List Anchor) : List Announcement :=
  anchors.foldl
    (fun acc a =>
      if is_announcement_link a.text a.href then acc ++ [mkAnnouncement now a] else acc)
    []

/-! ### Store and diff -/

/-- The default structure returned by `load_existing_data` on a missing or
unreadable data file (scraper.py lines 145-149). -/
def default_data : StoreState :=
  { announcements := [], last_check := "", total_count := 0 }

/-- `QingdaoHRSScraper.load_existing_data` (scraper.py lines 135-149).  The
file system is abstracted as `none` (file missing), `some none` (file exists
but `json.load` fails), `some (some d)` (deserialization succeeds with `d`). -/
def load_existing_data : Option (Option StoreState) → StoreState
  | some (some d) => d
  | some none => default_data
  | none => default_data

/-- `QingdaoHRSScraper.detect_new_announcements` (scraper.py lines 161-170):
keep the current records whose id is not among the stored ids, in order. -/
def detect_new_announcements (current : List Announcement) (existing : StoreState) :
    List Announcement :=
  let existing_ids := existing.announcements.map (fun a => a.id)
  current.filter (fun a => decide (a.id ∉ existing_ids))

/-- `SCRAPE_CONFIG["max_announcements"]` (config.py line 38). -/
def max_announcements : Nat := 50

/-- `SCRAPE_CONFIG["check_interval"]` (config.py line 37). -/
def check_interval : Nat := 1200

/-- Python's tail slice `l[-k:]` for `k ≥ 0` (note `l[-0:]` is all of `l`). -/
def pySliceLast (k : Nat) (l : List α) : List α :=
  if k = 0 then l else l.drop (l.length - k)

/-- The store-updating tail of `QingdaoHRSScraper.run_once` (scraper.py
lines 211-238): detect the new records against the loaded store, append
them, evict to `max_announcements`, and rebuild the persisted structure
with `last_check := now` and `total_count := len(announcements)`. -/
def runOnceUpdate (existing : StoreState) (current : List Announcement) (now : String) :
    StoreState :=
  let new_announcements := detect_new_announcements current existing
  let all0 := existing.announcements ++ new_announcements
  let all1 := if all0.length > max_announcements then pySliceLast max_announcements all0 else all0
  { announcements := all1, last_check := now, total_count := all1.length }

/-- Stored states reachable from the empty store by repeatedly running the
parse-diff-append-evict-save cycle on arbitrary fetched anchor lists. -/
inductive Reachable : StoreState → Prop
  | init : Reachable default_data
  | step (s : StoreState) (now : String) (anchors : List Anchor) :
      Reachable s → Reachable (runOnceUpdate s (parse_announcements now anchors) now)

/-- Reachability restricted to cycles whose parsed current sequence has
pairwise-distinct identifiers (e.g. no duplicate matching anchors on the
fetched page). -/
inductive ReachableDistinct : StoreState → Prop
  | init : ReachableDistinct default_data
  | step (s : StoreState) (now : String) (anchors : List Anchor) :
      ReachableDistinct s →
      ((parse_announcements now anchors).map (fun r => r.id)).Nodup →
      ReachableDistinct (runOnceUpdate s (parse_announcements now anchors) now)

/-! ### Notifier -/

/-- `MessageNotifier.send_notification` (utils/notifier.py lines 65-96).
Desktop delivery (`send_windows_notification`, which wraps platform checks
and `plyer`) is abstracted as the capability `deliver`; the second component
records the delivery calls made (title, message), so the empty list means no
delivery call was performed. -/
def send_notification (deliver : String → String → Bool) :
    List Announcement → Bool × List (String × String)
  | [] => (false, [])
  | a :: rest =>
    let n := (a :: rest).length
    let title := "青岛人社局新通知 (" ++ toString n ++ "条)"
    let message :=
      if n = 1 then a.title.take 100
      else "发现" ++ toString n ++ "条新通知，请查看日志获取详情"
    (deliver title message, [(title, message)])

/-! ### Daemon loop -/

/-- `max_errors` in `run_daemon` (scraper.py line 262). -/
def max_errors : Nat := 5

/-- The outcome of one `run_once` call as seen by the `while` loop of
`run_daemon` (scraper.py lines 264-303): normal return, a propagated
`requests.exceptions.RequestException`, any other exception, or
`KeyboardInterrupt`. -/
inductive CycleOutcome
  | success
  | netError
  | otherError
  | interrupt
deriving DecidableEq, Repr

/-- The loop's status after handling one cycle outcome. -/
inductive LoopStatus
  | running (error_count : Nat)
  | stoppedFatal
  | stoppedGraceful
deriving DecidableEq, Repr

/-- One iteration of the `run_daemon` loop body (scraper.py lines 264-303):
given the current consecutive-error count and the cycle outcome, the new
status and the sleep performed before the next iteration (`none` when the
loop breaks without sleeping). -/
def daemonStep (error_count : Nat) : CycleOutcome → LoopStatus × Option Nat
  | .success => (.running 0, some check_interval)
  | .interrupt => (.stoppedGraceful, none)
  | .netError =>
    if error_count + 1 ≥ max_errors then (.stoppedFatal, none)
    else (.running (error_count + 1), some (min 300 (60 * (error_count + 1))))
  | .otherError =>
    if error_count + 1 ≥ max_errors then (.stoppedFatal, none)
    else (.running (error_count + 1), some 60)

/-- Run the daemon loop over a list of cycle outcomes, returning the final
status and the list of sleeps performed (in seconds, in order). -/
def daemonRun : Nat → List CycleOutcome → LoopStatus × List Nat
  | ec, [] => (.running ec, [])
  | ec, o :: os =>
    match daemonStep ec o with
    | (.running ec', sl) =>
      let r := daemonRun ec' os
      (r.1, sl.toList ++ r.2)
    | (st, _) => (st, [])

/-! ### Helper lemmas -/

theorem isPrefixOf_slash_not_http (l : List Char) (h : List.isPrefixOf ['/'] l = true) :
    List.isPrefixOf ['h', 't', 't', 'p'] l = false := by
  cases l with
  | nil => simp [List.isPrefixOf] at h
  | cons c t =>
    simp [List.isPrefixOf] at h ⊢
    subst h
    intro hc
    exact absurd hc (by decide)

theorem slash_not_http (href : String) (h : pyStartswith "/" href = true) :
    pyStartswith "http" href = false := by
  have h1 : ("/" : String).data = ['/'] := rfl
  have h2 : ("http" : String).data = ['h', 't', 't', 'p'] := rfl
  unfold pyStartswith at h ⊢
  rw [h1] at h
  rw [h2]
  exact isPrefixOf_slash_not_http _ h

end Scraper

namespace Scraper

/-- C7: URL resolution: an absolute href (one starting with "http") is
returned unchanged; a root-relative href (starting with "/") is prefixed
with the site origin; any other href is prefixed with the listing page's
own path. -/
theorem get_full_url_spec (href : String) :
    (pyStartswith "http" href = true → get_full_url href = href) ∧
    (pyStartswith "/" href = true → get_full_url href = site_origin ++ href) ∧
    (pyStartswith "http" href = false → pyStartswith "/" href = false →
      get_full_url href = listing_path ++ href) := by
  refine ⟨fun h => ?_, fun h => ?_, fun h1 h2 => ?_⟩
  · simp [get_full_url, h]
  · simp [get_full_url, slash_not_http href h, h]
  · simp [get_full_url, h1, h2]

/-- Witness for C7 at concrete hrefs of each of the three classes. -/
theorem get_full_url_spec_witness :
    get_full_url "http://x" = "http://x" ∧
    get_full_url "/a" = site_origin ++ "/a" ∧
    get_full_url "a.html" = listing_path ++ "a.html" :=
  ⟨(get_full_url_spec "http://x").1 (by decide),
   (get_full_url_spec "/a").2.1 (by decide),
   (get_full_url_spec "a.html").2.2 (by decide) (by decide)⟩

/-- C8: loading never fails the caller: a missing file and a failed
deserialization both yield the fresh empty store; a successful
deserialization is returned as-is. -/
theorem load_existing_data_spec :
    load_existing_data none = { announcements := [], last_check := "", total_count := 0 } ∧
    load_existing_data (some none) = { announcements := [], last_check := "", total_count := 0 } ∧
    ∀ d : StoreState, load_existing_data (some (some d)) = d :=
  ⟨rfl, rfl, fun _ => rfl⟩

/-- C9: notifying with an empty list of new records returns false and
performs no delivery call, whatever the delivery capability does. -/
theorem send_notification_empty (deliver : String → String → Bool) :
    send_notification deliver [] = (false, []) := rfl

/-- Membership in the diff output, unfolded. -/
lemma mem_detect_new (C : List Announcement) (S : StoreState) (a : Announcement) :
    a ∈ detect_new_announcements C S ↔
      a ∈ C ∧ ∀ b ∈ S.announcements, b.id ≠ a.id := by
  simp only [detect_new_announcements, List.mem_filter, decide_eq_true_eq]
  constructor
  · rintro ⟨hC, hid⟩
    refine ⟨hC, fun b hb hba => hid ?_⟩
    exact List.mem_map.mpr ⟨b, hb, hba⟩
  · rintro ⟨hC, hall⟩
    refine ⟨hC, fun hmem => ?_⟩
    obtain ⟨b, hb, hba⟩ := List.mem_map.mp hmem
    exact hall b hb hba

/-- C2: the diff keeps exactly the current records whose id is absent from
the stored ids, preserving the order of `current` (it is a sublist of it);
diffing against an empty store returns all of `current`, and diffing a list
against a store holding exactly that list returns the empty list.  The
function is modelled as a pure function, as the source performs no I/O. -/
theorem detect_new_spec (C : List Announcement) :
    (∀ (S : StoreState) (a : Announcement),
        a ∈ detect_new_announcements C S ↔
          a ∈ C ∧ ∀ b ∈ S.announcements, b.id ≠ a.id) ∧
    (∀ S : StoreState, (detect_new_announcements C S).Sublist C) ∧
    (∀ lc tc, detect_new_announcements C { announcements := [], last_check := lc, total_count := tc } = C) ∧
    (∀ lc tc, detect_new_announcements C { announcements := C, last_check := lc, total_count := tc } = []) := by
  refine ⟨mem_detect_new C, fun S => List.filter_sublist _, fun lc tc => ?_, fun lc tc => ?_⟩
  · apply List.filter_eq_self.mpr
    intro a _
    simp
  · apply List.filter_eq_nil_iff.mpr
    intro a ha
    simp only [decide_eq_true_eq, not_not]
    exact List.mem_map.mpr ⟨a, ha, rfl⟩

/-- Witness for C2 on a concrete one-record list and the empty store. -/
theorem detect_new_spec_witness :
    detect_new_announcements [⟨"i", "t", "u", "s", true⟩]
        { announcements := [], last_check := "", total_count := 0 } =
      [⟨"i", "t", "u", "s", true⟩] :=
  (detect_new_spec [⟨"i", "t", "u", "s", true⟩]).2.2.1 "" 0

/-- The announcements stored by one cycle are the last `max_announcements`
entries of the previously stored records followed by the newly detected
ones. -/
lemma runOnceUpdate_announcements (existing : StoreState) (current : List Announcement)
    (now : String) :
    (runOnceUpdate existing current now).announcements =
      (existing.announcements ++ detect_new_announcements current existing).drop
        ((existing.announcements ++ detect_new_announcements current existing).length -
          max_announcements) := by
  simp only [runOnceUpdate]
  set all0 := existing.announcements ++ detect_new_announcements current existing with hall
  by_cases h : all0.length > max_announcements
  · simp only [h, if_true, pySliceLast]
    have : max_announcements ≠ 0 := by decide
    simp [this]
  · simp only [h, if_false]
    have : all0.length - max_announcements = 0 := by omega
    simp [this]

/-- The per-cycle store length bound. -/
lemma runOnceUpdate_length_le (existing : StoreState) (current : List Announcement)
    (now : String) :
    (runOnceUpdate existing current now).announcements.length ≤ max_announcements := by
  rw [runOnceUpdate_announcements]
  set all0 := existing.announcements ++ detect_new_announcements current existing
  by_cases h : all0.length ≤ max_announcements
  · calc (all0.drop (all0.length - max_announcements)).length ≤ all0.length :=
          by simp [List.length_drop]
      _ ≤ max_announcements := h
  · rw [List.length_drop]
    omega

/-- C4: after every save performed by a cycle the store holds at most
`max_announcements` records, and the retained entries are exactly the last
`max_announcements` entries of the previously stored records followed by
the cycle's new records, in their original relative order (oldest dropped
first). -/
theorem run_once_eviction (existing : StoreState) (current : List Announcement) (now : String) :
    (runOnceUpdate existing current now).announcements.length ≤ max_announcements ∧
    (runOnceUpdate existing current now).announcements =
      (existing.announcements ++ detect_new_announcements current existing).drop
        ((existing.announcements ++ detect_new_announcements current existing).length -
          max_announcements) :=
  ⟨runOnceUpdate_length_le existing current now,
   runOnceUpdate_announcements existing current now⟩

/-- C10: the persisted `total_count` equals the length of the retained
announcements after eviction, hence is at most `max_announcements`; it is
not a cumulative lifetime total. -/
theorem run_once_total_count (existing : StoreState) (current : List Announcement)
    (now : String) :
    (runOnceUpdate existing current now).total_count =
      (runOnceUpdate existing current now).announcements.length ∧
    (runOnceUpdate existing current now).total_count ≤ max_announcements := by
  constructor
  · simp [runOnceUpdate]
  · have h := runOnceUpdate_length_le existing current now
    simpa [runOnceUpdate] using h

/-- A failure outcome: a cycle that raised either exception class. -/
def CycleOutcome.isFailure : CycleOutcome → Prop
  | .netError => True
  | .otherError => True
  | _ => False

instance (o : CycleOutcome) : Decidable o.isFailure := by
  cases o <;> unfold CycleOutcome.isFailure <;> infer_instance

/-- Running the loop on consecutive failures reaches the fatal stop as soon
as the consecutive-error count would reach `max_errors`. -/
lemma daemonRun_fatal (os : List CycleOutcome) :
    ∀ ec : Nat, os ≠ [] → (∀ o ∈ os, o.isFailure) →
      max_errors ≤ ec + os.length → (daemonRun ec os).1 = LoopStatus.stoppedFatal := by
  induction os with
  | nil => intro ec h; exact absurd rfl h
  | cons o os ih =>
    intro ec _ hall hlen
    have ho := hall o (List.mem_cons_self o os)
    by_cases h5 : ec + 1 ≥ max_errors
    · cases o <;> simp [CycleOutcome.isFailure] at ho <;>
        simp [daemonRun, daemonStep, h5]
    · have hos : os ≠ [] := by
        intro hnil
        subst hnil
        simp only [List.length_cons, List.length_nil] at hlen
        omega
      have hrec := ih (ec + 1) hos (fun o' ho' => hall o' (List.mem_cons_of_mem _ ho'))
        (by simp only [List.length_cons] at hlen ⊢; omega)
      cases o <;> simp [CycleOutcome.isFailure] at ho <;>
        simp [daemonRun, daemonStep, h5, hrec]

/-- C3: in daemon mode, any run of consecutive failing cycles that brings
the consecutive-error count to `max_errors = 5` stops the loop fatally;
while below the ceiling, a network-class failure sleeps
`min 300 (60 * count)` (so the 3rd consecutive network failure sleeps
exactly 180 s), any other runtime failure sleeps a fixed
60 s, a successful cycle resets the count to 0 and sleeps the configured
interval, and reaching the ceiling stops without sleeping (no retry). -/
theorem daemon_backoff_spec :
    (∀ (os : List CycleOutcome) (ec : Nat), os ≠ [] → (∀ o ∈ os, o.isFailure) →
        max_errors ≤ ec + os.length → (daemonRun ec os).1 = LoopStatus.stoppedFatal) ∧
    (daemonRun 0 [CycleOutcome.netError, CycleOutcome.netError, CycleOutcome.netError] =
      (LoopStatus.running 3, [60, 120, 180])) ∧
    (∀ ec, ec + 1 < max_errors →
        daemonStep ec CycleOutcome.netError =
          (LoopStatus.running (ec + 1), some (min 300 (60 * (ec + 1))))) ∧
    (∀ ec, ec + 1 < max_errors →
        daemonStep ec CycleOutcome.otherError = (LoopStatus.running (ec + 1), some 60)) ∧
    (∀ ec, daemonStep ec CycleOutcome.success = (LoopStatus.running 0, some check_interval)) ∧
    (∀ (ec : Nat) (o : CycleOutcome), max_errors ≤ ec + 1 → o.isFailure →
        daemonStep ec o = (LoopStatus.stoppedFatal, none)) := by
  refine ⟨daemonRun_fatal, by decide, fun ec h => ?_, fun ec h => ?_, fun ec => rfl,
    fun ec o h ho => ?_⟩
  · simp [daemonStep, Nat.not_le_of_lt h]
  · simp [daemonStep, Nat.not_le_of_lt h]
  · cases o <;> simp [CycleOutcome.isFailure] at ho <;> simp [daemonStep, h]

/-- Witness for C3: five consecutive network failures from a fresh count
stop the loop fatally; the 3rd consecutive network failure sleeps 180 s;
an isolated other-class failure sleeps 60 s; the 5th failure does not
sleep. -/
theorem daemon_backoff_spec_witness :
    (daemonRun 0 (List.replicate 5 CycleOutcome.netError)).1 = LoopStatus.stoppedFatal ∧
    daemonStep 2 CycleOutcome.netError = (LoopStatus.running 3, some 180) ∧
    daemonStep 0 CycleOutcome.otherError = (LoopStatus.running 1, some 60) ∧
    daemonStep 4 CycleOutcome.netError = (LoopStatus.stoppedFatal, none) := by
  refine ⟨daemon_backoff_spec.1 (List.replicate 5 CycleOutcome.netError) 0 (by decide)
      (by decide) (by decide),
    ?_, daemon_backoff_spec.2.2.2.1 0 (by decide),
    daemon_backoff_spec.2.2.2.2.2 4 CycleOutcome.netError (by decide) (by decide)⟩
  have h := daemon_backoff_spec.2.2.1 2 (by decide)
  simpa using h

/-- The Boolean substring test agrees with Mathlib's infix relation. -/
lemma listIsInfixOf_iff (p l : List Char) : listIsInfixOf p l = true ↔ p <:+: l := by
  induction l with
  | nil =>
    simp [listIsInfixOf, List.isEmpty_iff]
  | cons c t ih =>
    simp [listIsInfixOf, ih, List.infix_cons_iff, List.isPrefixOf_iff_prefix,
      or_comm]

/-- The link classifier, characterized: non-empty text and href, and some
keyword occurring in the text as a case-sensitive substring. -/
lemma is_announcement_link_iff (text href : String) :
    is_announcement_link text href = true ↔
      text ≠ "" ∧ href ≠ "" ∧ ∃ k ∈ keywords, k.data <:+: text.data := by
  unfold is_announcement_link
  by_cases ht : text = "" <;> by_cases hh : href = "" <;>
    simp [ht, hh, List.any_eq_true, pyContains, listIsInfixOf_iff]

/-- The parsing loop, rephrased as filter-then-map. -/
lemma parse_announcements_eq (now : String) (anchors : List Anchor) :
    parse_announcements now anchors =
      (anchors.filter (fun a => is_announcement_link a.text a.href)).map
        (mkAnnouncement now) := by
  suffices h : ∀ (l : List Anchor) (acc : List Announcement),
      l.foldl
        (fun acc a =>
          if is_announcement_link a.text a.href then acc ++ [mkAnnouncement now a] else acc)
        acc =
        acc ++ (l.filter (fun a => is_announcement_link a.text a.href)).map
          (mkAnnouncement now) by
    simpa [parse_announcements] using h anchors []
  intro l
  induction l with
  | nil => intro acc; simp
  | cons a t ih =>
    intro acc
    by_cases h : is_announcement_link a.text a.href <;>
      simp [List.foldl_cons, h, ih, List.filter_cons]

/-- C6: the parser is total (returns a possibly-empty list for every anchor
list) and an anchor contributes a candidate record exactly when its href
and visible text are non-empty and the text contains some keyword of the
fixed set as a case-sensitive substring; when no anchor matches, the result
is empty. -/
theorem parse_announcements_spec :
    (∀ text href, is_announcement_link text href = true ↔
        text ≠ "" ∧ href ≠ "" ∧ ∃ k ∈ keywords, k.data <:+: text.data) ∧
    (∀ (now : String) (anchors : List Anchor),
        (∀ a ∈ anchors, is_announcement_link a.text a.href = false) →
        parse_announcements now anchors = []) ∧
    (∀ (now : String) (anchors : List Anchor) (a : Anchor), a ∈ anchors →
        is_announcement_link a.text a.href = true →
        mkAnnouncement now a ∈ parse_announcements now anchors) ∧
    (∀ (now : String) (anchors : List Anchor) (r : Announcement),
        r ∈ parse_announcements now anchors →
        ∃ a ∈ anchors, is_announcement_link a.text a.href = true ∧
          r = mkAnnouncement now a) := by
  refine ⟨is_announcement_link_iff, fun now anchors h => ?_, fun now anchors a ha hl => ?_,
    fun now anchors r hr => ?_⟩
  · rw [parse_announcements_eq]
    have : anchors.filter (fun a => is_announcement_link a.text a.href) = [] := by
      apply List.filter_eq_nil_iff.mpr
      intro a ha
      simp [h a ha]
    simp [this]
  · rw [parse_announcements_eq]
    exact List.mem_map.mpr ⟨a, List.mem_filter.mpr ⟨ha, hl⟩, rfl⟩
  · rw [parse_announcements_eq] at hr
    obtain ⟨a, haf, har⟩ := List.mem_map.mp hr
    obtain ⟨ha, hl⟩ := List.mem_filter.mp haf
    exact ⟨a, ha, hl, har.symm⟩

/-- Witness for C6: the spec.md scenario anchors — a keyword-bearing anchor
contributes its record, a keyword-free one contributes nothing. -/
theorem parse_announcements_spec_witness :
    mkAnnouncement "t" ⟨"/a.html", "关于XX通知"⟩ ∈
      parse_announcements "t" [⟨"/a.html", "关于XX通知"⟩] ∧
    parse_announcements "t" [⟨"/b.html", "XX"⟩] = [] :=
  ⟨parse_announcements_spec.2.2.1 "t" [⟨"/a.html", "关于XX通知"⟩] ⟨"/a.html", "关于XX通知"⟩
      (by simp) (by decide),
   parse_announcements_spec.2.1 "t" [⟨"/b.html", "XX"⟩]
      (by intro a ha; simp at ha; subst ha; decide)⟩

/-- C1 is refuted on the code: `parse_announcements` passes the RAW anchor
href to `generate_id` (scraper.py line 94) but stores the resolved URL in
the record's url field (line 96), so for the matching anchor with relative
href "a.html" the record's id differs from the first 16 MD5 hex characters
of title ++ "_" ++ resolved url. -/
theorem generate_id_counterexample :
    ¬ ∀ r ∈ parse_announcements "2025-01-20 16:06:00" [⟨"a.html", "通知"⟩],
        r.id = (md5Hex (strBytes (r.title ++ "_" ++ r.url))).take 16 := by
  decide

/-- C1 (amended): every record produced by the parser has
`id = first 16 hex chars of MD5(title ++ "_" ++ href)` computed from the
raw anchor href before URL resolution, while the record's url field holds
the resolved URL; the id is therefore deterministic in (title, raw href). -/
theorem generate_id_spec :
    (∀ (now : String) (anchors : List Anchor) (r : Announcement),
        r ∈ parse_announcements now anchors →
        ∃ a ∈ anchors, r.title = a.text ∧ r.url = get_full_url a.href ∧
          r.id = generate_id a.text a.href) ∧
    (∀ t u, generate_id t u = (md5Hex (strBytes (t ++ "_" ++ u))).take 16) := by
  constructor
  · intro now anchors r hr
    rw [parse_announcements_eq] at hr
    obtain ⟨a, haf, har⟩ := List.mem_map.mp hr
    obtain ⟨ha, _⟩ := List.mem_filter.mp haf
    exact ⟨a, ha, by rw [← har]; rfl, by rw [← har]; rfl,
      by rw [← har]; simp only [mkAnnouncement]⟩
  · intro t u
    rfl

/-- Witness for C1 (amended) at the one-anchor listing. -/
theorem generate_id_spec_witness :
    ∃ a ∈ [(⟨"a.html", "通知"⟩ : Anchor)],
      (mkAnnouncement "t" ⟨"a.html", "通知"⟩).title = a.text ∧
      (mkAnnouncement "t" ⟨"a.html", "通知"⟩).url = get_full_url a.href ∧
      (mkAnnouncement "t" ⟨"a.html", "通知"⟩).id = generate_id a.text a.href :=
  generate_id_spec.1 "t" [⟨"a.html", "通知"⟩] (mkAnnouncement "t" ⟨"a.html", "通知"⟩)
    (parse_announcements_spec.2.2.1 "t" [⟨"a.html", "通知"⟩] ⟨"a.html", "通知"⟩
      (by simp) (by decide))

/-- C5 is refuted: a fetched page listing the same matching anchor twice
yields (in a single cycle from the empty store) a reachable store whose id
sequence contains a duplicate, because `detect_new_announcements` only
dedupes against stored ids, not within the current page. -/
theorem store_ids_unique_counterexample :
    ∃ s : StoreState, Reachable s ∧ ¬ (s.announcements.map (fun r => r.id)).Nodup := by
  refine ⟨runOnceUpdate default_data
      (parse_announcements "t" [⟨"a.html", "通知"⟩, ⟨"a.html", "通知"⟩]) "t",
    Reachable.step _ _ _ Reachable.init, ?_⟩
  have h : ((runOnceUpdate default_data
      (parse_announcements "t" [⟨"a.html", "通知"⟩, ⟨"a.html", "通知"⟩]) "t").announcements.map
        (fun r => r.id)) =
      [generate_id "通知" "a.html", generate_id "通知" "a.html"] := by decide
  rw [h]
  simp

/-- Appending the diffed new records and evicting preserves distinctness of
stored ids, provided the current records' ids are themselves distinct. -/
lemma runOnceUpdate_nodup (existing : StoreState) (current : List Announcement) (now : String)
    (he : (existing.announcements.map (fun r => r.id)).Nodup)
    (hc : (current.map (fun r => r.id)).Nodup) :
    ((runOnceUpdate existing current now).announcements.map (fun r => r.id)).Nodup := by
  rw [runOnceUpdate_announcements]
  have hall : ((existing.announcements ++ detect_new_announcements current existing).map
      (fun r => r.id)).Nodup := by
    rw [List.map_append]
    apply List.Nodup.append he
    · have hs : (detect_new_announcements current existing).Sublist current :=
        List.filter_sublist _
      exact hc.sublist (hs.map _)
    · intro x hx1 hx2
      obtain ⟨a, ha, rfl⟩ := List.mem_map.mp hx2
      obtain ⟨b, hb, hba⟩ := List.mem_map.mp hx1
      exact ((mem_detect_new current existing a).mp ha).2 b hb hba
  rw [List.map_drop]
  exact hall.sublist (List.drop_sublist _ _)

/-- C5 (amended): every store reachable from the empty store through cycles
whose parsed current sequence has pairwise-distinct identifiers keeps its
stored identifiers pairwise distinct. -/
theorem store_ids_unique (s : StoreState) (h : ReachableDistinct s) :
    (s.announcements.map (fun r => r.id)).Nodup := by
  induction h with
  | init => simp [default_data]
  | step s now anchors hr hnd ih => exact runOnceUpdate_nodup s _ now ih hnd

/-- Witness for C5 (amended): one cycle on a single matching anchor. -/
theorem store_ids_unique_witness :
    ((runOnceUpdate default_data (parse_announcements "t" [⟨"a.html", "通知"⟩])
        "t").announcements.map (fun r => r.id)).Nodup :=
  store_ids_unique _ (ReachableDistinct.step default_data "t" [⟨"a.html", "通知"⟩]
    ReachableDistinct.init (by
      have h : (parse_announcements "t" [⟨"a.html", "通知"⟩]).map (fun r => r.id) =
          [generate_id "通知" "a.html"] := by decide
      rw [h]
      simp))

end Scraper
